import Mathlib

/-!
Verification of the Mongo-to-S3 CSV generation service (src/script.py).

The script is a sequential polling worker: it receives one SQS message,
deletes it from the queue immediately, parses its JSON body into a job,
fetches matching documents from a Mongo collection, optionally applies a
column mapping to the resulting Spark DataFrame, writes the DataFrame to a
local CSV file, uploads it to S3 and removes the local file, all inside a
while-true loop whose body is wrapped in a catch-all except clause.

Modelling choices:
- A Spark DataFrame is modelled by its ordered list of column names where
  only the column structure matters; where a claim only concerns which
  component calls happen, the DataFrame type is a type parameter and
  createDataFrame and apply_column_mapping are function parameters.
- select on a list of names keeps exactly those columns;
  withColumnRenamed src dst renames every column currently named src.
- The external world (fetch results, upload success, queue contents, the
  random uuid token) enters as explicit parameters; exceptions are modelled
  by an explicit Bool flag or an Except value, and side effects already
  performed before an exception survive it, as in Python.
-/

/-- One Python statement-level rename step, modelling
pyspark withColumnRenamed applied to the list of column names:
every column currently named src becomes dst; a no-op when src is absent. -/
def renameAll (cols : List String) (src dst : String) : List String :=
  cols.map (fun c => if c = src then dst else c)

/-- A column mapping, the embedding of the Python dict in insertion order.
Python dict keys are pairwise distinct; theorems carry that as a
Nodup hypothesis where they need it. -/
abbrev Mapping := List (String × String)

/-- Embedding of apply_column_mapping from src/script.py lines 50-55,
acting on the column-name list of the DataFrame:
selected is the list comprehension over mapping keys filtered by membership
in df.columns; df.select restricts the columns to selected; the for loop
folds withColumnRenamed over every mapping item in order. -/
def apply_column_mapping (cols : List String) (mapping : Mapping) : List String :=
  let selected := (mapping.map Prod.fst).filter (fun c => decide (c ∈ cols))
  mapping.foldl (fun acc p => renameAll acc p.1 p.2) selected

/-- The spec's words for the output of the column mapper: the destination
names of exactly those mapping keys that occur as input columns, in the
mapping's insertion order. Used to compare against apply_column_mapping. -/
def mapped_columns_spec (cols : List String) (mapping : Mapping) : List String :=
  (mapping.filter (fun p => decide (p.1 ∈ cols))).map Prod.snd

/-- The cumulative effect of the rename loop on one column name:
folds the mapping items left to right, replacing the name by the
destination the first time the current name equals a key. -/
def rename1 (mapping : Mapping) (x : String) : String :=
  mapping.foldl (fun y p => if y = p.1 then p.2 else y) x

/-- Local scratch directory and S3 state as the exporter touches them. -/
structure FsState where
  localFiles : List String
  s3Objects : List String
deriving DecidableEq

/-- The file name f-string of src/script.py line 58:
table name, underscore, the hex token of uuid.uuid4, and a .csv suffix. -/
def export_file_name (table token : String) : String :=
  table ++ "_" ++ token ++ ".csv"

/-- A lowercase hexadecimal digit, the alphabet of uuid.uuid4().hex. -/
def is_hex_digit (c : Char) : Bool :=
  c.isDigit || ('a' ≤ c && c ≤ 'f')

/-- The shape of uuid.uuid4().hex: exactly 32 lowercase hex digits. -/
def is_hex_token (tok : String) : Bool :=
  tok.length == 32 && tok.data.all is_hex_digit

/-- Name matches the spec pattern: table name, underscore, a 32-hex-char
token, .csv. -/
def matches_export_pattern (table name : String) : Prop :=
  ∃ tok, is_hex_token tok = true ∧ name = export_file_name table tok

/-- Embedding of save_to_s3 from src/script.py lines 57-66 as a state
transformer. token stands for uuid.uuid4().hex, uploadOk for whether
boto3 upload_file returns or raises. Returned Bool: true when the call
raises (the exception propagates to the caller with the state reached so
far). to_csv adds the local file; on successful upload the object is
stored and os.remove deletes the local file; when the upload raises,
execution stops there, so the local file stays on disk. -/
def save_to_s3 (st : FsState) (s3Path table token : String) (uploadOk : Bool) :
    FsState × Bool :=
  let file_name := export_file_name table token
  let local_path := "/tmp/" ++ file_name
  let s3_key := s3Path ++ "/" ++ file_name
  let st1 : FsState := ⟨local_path :: st.localFiles, st.s3Objects⟩
  if uploadOk then
    let st2 : FsState := ⟨st1.localFiles, s3_key :: st1.s3Objects⟩
    (⟨st2.localFiles.erase local_path, st2.s3Objects⟩, false)
  else
    (st1, true)

/-- A Mongo filter document; its internal structure never matters here. -/
abbrev Query := List (String × String)

/-- The table_name entry of the message dict: the key can be absent, hold
JSON null, or hold a string. message.get turns absent and null into
Python None. -/
inductive FieldVal where
  | absent
  | null
  | str (s : String)
deriving DecidableEq

/-- Python message.get: None for an absent key and for a null value,
the string otherwise. -/
def FieldVal.get : FieldVal → Option String
  | .absent => none
  | .null => none
  | .str s => some s

/-- A parsed job message: the dict json.loads produces, restricted to the
three keys the script reads. none models an absent key, for which
message.get supplies the empty-dict default for query and column_mapping. -/
structure Msg where
  table_name : FieldVal
  query : Option Query
  column_mapping : Option Mapping
deriving DecidableEq

/-- Calls process_message makes on its collaborators, in order. -/
inductive Event (DF : Type) where
  | fetchCall (q : Query) (t : String)
  | mapCall (df : DF) (m : Mapping)
  | exportCall (df : DF) (t : String)
deriving DecidableEq

/-- Embedding of process_message from src/script.py lines 68-89.
Row and DF are the document and DataFrame types; createDF embeds
spark.createDataFrame, applyM the column mapper, fetch the Mongo fetch
(error models a raised exception), uploadOk whether the S3 upload in
save_to_s3 succeeds. Returns the ordered list of collaborator calls and
whether the function raises. The early returns for a falsy table_name and
for an empty fetch result produce no further calls and do not raise. -/
def process_message (Row DF : Type) (createDF : List Row → DF)
    (applyM : DF → Mapping → DF)
    (fetch : Query → String → Except Unit (List Row))
    (uploadOk : Bool) (msg : Msg) : List (Event DF) × Bool :=
  let query := msg.query.getD []
  let column_mapping := msg.column_mapping.getD []
  match msg.table_name.get with
  | none => ([], false)
  | some t =>
    if t.isEmpty then
      ([], false)
    else
      match fetch query t with
      | .error _ => ([Event.fetchCall query t], true)
      | .ok data =>
        if data.isEmpty then
          ([Event.fetchCall query t], false)
        else
          let df := createDF data
          if column_mapping.isEmpty then
            ([Event.fetchCall query t, Event.exportCall df t], !uploadOk)
          else
            let df2 := applyM df column_mapping
            ([Event.fetchCall query t, Event.mapCall df column_mapping,
              Event.exportCall df2 t], !uploadOk)

/-- A raw SQS message body: either valid JSON denoting a job dict, or text
json.loads rejects. -/
inductive Body where
  | valid (m : Msg)
  | malformed (s : String)
deriving DecidableEq

/-- json.loads on a body: the parsed job, or none when it raises. -/
def parse_body : Body → Option Msg
  | .valid m => some m
  | .malformed _ => none

/-- Outcome of receive_message: no message within the wait window, a parsed
job, or a raised exception from json.loads. -/
inductive ReceiveResult where
  | empty
  | msg (m : Msg)
  | exn
deriving DecidableEq

/-- Embedding of receive_message from src/script.py lines 30-41 on the
queue, a list of message bodies with the head available first. When a
message is present it is deleted from the queue by delete_message before
json.loads runs, so the returned queue is the tail even when parsing
raises; an empty receive leaves the queue unchanged and returns None. -/
def receive_message (q : List Body) : List Body × ReceiveResult :=
  match q with
  | [] => ([], .empty)
  | b :: rest =>
    match parse_body b with
    | some m => (rest, .msg m)
    | none => (rest, .exn)

/-- The fixed collaborators of one service run: the engine handle, the
mapper, the Mongo behaviour, the upload behaviour and POLL_INTERVAL. -/
structure LoopEnv (Row DF : Type) where
  createDF : List Row → DF
  applyM : DF → Mapping → DF
  fetch : Query → String → Except Unit (List Row)
  uploadOk : Bool
  pollInterval : Nat

/-- What one iteration of the while-true loop in main did: an empty poll
(sleep POLL_INTERVAL), a processed message, or an exception caught by the
except clause (sleep POLL_INTERVAL); the caught case records the
collaborator calls already made before the exception. -/
inductive IterOutcome (DF : Type) where
  | idle
  | processed (events : List (Event DF))
  | errorCaught (events : List (Event DF))
deriving DecidableEq

/-- One iteration of the loop body of main, src/script.py lines 94-104:
receive_message, then process_message when a message arrived; any
exception from the body (json.loads or processing) lands in the except
clause. Returns the queue after the iteration and what happened. -/
def loop_iter (Row DF : Type) (env : LoopEnv Row DF) (q : List Body) :
    List Body × IterOutcome DF :=
  match q with
  | [] => ([], .idle)
  | b :: rest =>
    match parse_body b with
    | none => (rest, .errorCaught [])
    | some m =>
      let r := process_message Row DF env.createDF env.applyM env.fetch env.uploadOk m
      (rest, if r.2 then .errorCaught r.1 else .processed r.1)

/-- Seconds slept at the end of an iteration: the poll interval after an
empty poll or a caught error, none after a processed message. -/
def sleep_of (pollInterval : Nat) {DF : Type} : IterOutcome DF → Nat
  | .processed _ => 0
  | .idle => pollInterval
  | .errorCaught _ => pollInterval

/-- n iterations of main's while-true loop, tracking the queue. The loop
has no exit: every iteration, whatever its outcome, is followed by the
next one. -/
def run (Row DF : Type) (env : LoopEnv Row DF) : Nat → List Body → List Body
  | 0, q => q
  | n + 1, q => run Row DF env n (loop_iter Row DF env q).1

/-- Whether an iteration ended in the except clause of main. -/
def isErrorCaught {DF : Type} : IterOutcome DF → Bool
  | .errorCaught _ => true
  | _ => false

/-- Unfolding rename1 over the head mapping item. -/
theorem rename1_cons (p : String × String) (rest : Mapping) (x : String) :
    rename1 (p :: rest) x = rename1 rest (if x = p.1 then p.2 else x) := rfl

/-- The rename loop over the whole column list is the per-column cumulative
rename applied to each column. -/
theorem foldl_renameAll_eq_map (mapping : Mapping) :
    ∀ cs : List String,
      mapping.foldl (fun acc p => renameAll acc p.1 p.2) cs =
        cs.map (rename1 mapping) := by
  induction mapping with
  | nil =>
    intro cs
    rw [show rename1 ([] : Mapping) = id from rfl, List.map_id, List.foldl_nil]
  | cons p rest ih =>
    intro cs
    simp only [List.foldl_cons]
    rw [ih (renameAll cs p.1 p.2)]
    simp only [renameAll, List.map_map]
    rfl

/-- A name that is no mapping key is untouched by the rename loop. -/
theorem rename1_not_mem (mapping : Mapping) (x : String)
    (hx : x ∉ mapping.map Prod.fst) : rename1 mapping x = x := by
  induction mapping with
  | nil => rfl
  | cons p rest ih =>
    simp only [List.map_cons, List.mem_cons, not_or] at hx
    rw [rename1_cons, if_neg hx.1, ih hx.2]

/-- With pairwise-distinct keys and a destination that is no other key, the
rename loop sends a key to its own destination. -/
theorem rename1_mem (mapping : Mapping) (p : String × String)
    (hmem : p ∈ mapping) (hnd : (mapping.map Prod.fst).Nodup)
    (hsafe : p.2 = p.1 ∨ p.2 ∉ mapping.map Prod.fst) :
    rename1 mapping p.1 = p.2 := by
  induction mapping with
  | nil => cases hmem
  | cons q rest ih =>
    rw [List.map_cons, List.nodup_cons] at hnd
    rcases List.mem_cons.mp hmem with rfl | hmem'
    · rw [rename1_cons, if_pos rfl]
      rcases hsafe with h | h
      · rw [h]
        exact rename1_not_mem rest p.1 hnd.1
      · refine rename1_not_mem rest p.2 (fun hc => h ?_)
        simp [hc]
    · have hne : p.1 ≠ q.1 := by
        intro hc
        exact hnd.1 (hc ▸ List.mem_map.mpr ⟨p, hmem', rfl⟩)
      rw [rename1_cons, if_neg hne]
      refine ih hmem' hnd.2 ?_
      rcases hsafe with h | h
      · exact Or.inl h
      · exact Or.inr (fun hc => h (by simp [hc]))

/-- Filtering mapping keys by column membership commutes with projecting
the keys out of the filtered mapping. -/
theorem map_fst_filter_mem (cols : List String) (mapping : Mapping) :
    (mapping.map Prod.fst).filter (fun c => decide (c ∈ cols)) =
      (mapping.filter (fun p => decide (p.1 ∈ cols))).map Prod.fst := by
  induction mapping with
  | nil => rfl
  | cons p rest ih =>
    simp only [List.map_cons, List.filter_cons]
    by_cases h : p.1 ∈ cols
    · simp [h, ih]
    · simp [h, ih]

/-- Claim C1 counterexample: for input column a and mapping a to d, d to e
(a legal dict: keys distinct, insertion order a then d), the claim predicts
output column d, but the sequential withColumnRenamed loop renames the
already-renamed column again (a to d, then d to e), producing e. -/
theorem c1_mapping_counterexample :
    apply_column_mapping ["a"] [("a", "d"), ("d", "e")] ≠
      mapped_columns_spec ["a"] [("a", "d"), ("d", "e")] := by decide

/-- Claim C1 (amended): when the mapping keys are pairwise distinct and no
destination of a retained key collides with a mapping key other than its
own (so no rename chains onto an earlier result), apply_column_mapping
returns exactly the destination names of the mapping keys present among
the input columns, in the mapping's insertion order; other input columns
are dropped and absent keys are ignored without error. -/
theorem c1_mapping_amended (cols : List String) (mapping : Mapping)
    (hnd : (mapping.map Prod.fst).Nodup)
    (hsafe : ∀ p ∈ mapping, p.1 ∈ cols →
      p.2 = p.1 ∨ p.2 ∉ mapping.map Prod.fst) :
    apply_column_mapping cols mapping = mapped_columns_spec cols mapping := by
  unfold apply_column_mapping mapped_columns_spec
  rw [foldl_renameAll_eq_map, map_fst_filter_mem, List.map_map]
  refine List.map_congr_left (fun p hp => ?_)
  have hpm : p ∈ mapping := List.mem_of_mem_filter hp
  have hpc : p.1 ∈ cols := by simpa using List.of_mem_filter hp
  exact rename1_mem mapping p hpm hnd (hsafe p hpm hpc)

/-- Claim C1 witness: the spec's own example, columns a, b, c with mapping
a to x, c to z, d to w, satisfies the amended hypotheses and yields
exactly x, z in that order. -/
theorem c1_mapping_amended_witness :
    apply_column_mapping ["a", "b", "c"] [("a", "x"), ("c", "z"), ("d", "w")] =
        mapped_columns_spec ["a", "b", "c"] [("a", "x"), ("c", "z"), ("d", "w")] ∧
      mapped_columns_spec ["a", "b", "c"] [("a", "x"), ("c", "z"), ("d", "w")] =
        ["x", "z"] :=
  ⟨c1_mapping_amended ["a", "b", "c"] [("a", "x"), ("c", "z"), ("d", "w")]
      (by decide) (by decide), by decide⟩

/-- Claim C2 counterexample: starting from an empty scratch directory, when
the upload fails, save_to_s3 raises and the local scratch file is still
present afterwards, refuting deletion of the local copy on upload
failure: os.remove sits after upload_file with no try or finally. -/
theorem c2_local_file_counterexample :
    (save_to_s3 ⟨[], []⟩ "exports" "orders"
        "00000000000000000000000000000000" false).2 = true ∧
      "/tmp/" ++ export_file_name "orders" "00000000000000000000000000000000" ∈
        (save_to_s3 ⟨[], []⟩ "exports" "orders"
          "00000000000000000000000000000000" false).1.localFiles := by
  exact ⟨rfl, List.mem_cons_self _ _⟩

/-- Claim C2 (amended): the local scratch copy is deleted exactly on the
success path. After a successful upload the local directory is as before
the call (written then removed) and the object is stored; when the upload
fails the exception propagates and the local file remains on disk with no
object stored. -/
theorem c2_local_file_amended (st : FsState) (s3Path table token : String) :
    save_to_s3 st s3Path table token true =
        (⟨st.localFiles,
          (s3Path ++ "/" ++ export_file_name table token) :: st.s3Objects⟩,
          false) ∧
      save_to_s3 st s3Path table token false =
        (⟨("/tmp/" ++ export_file_name table token) :: st.localFiles,
          st.s3Objects⟩, true) := by
  refine ⟨?_, rfl⟩
  simp [save_to_s3, List.erase_cons_head]

/-- Claim C3: for every queue, a non-empty receive deletes the head message
from the queue before its content is parsed or processed, so the queue
after the call is the tail whatever the outcome; an empty receive returns
None and leaves the queue unchanged; at loop level the next iteration
therefore receives from the tail, never redelivering the consumed message. -/
theorem c3_receive_deletes_first (Row DF : Type) (env : LoopEnv Row DF)
    (q : List Body) :
    (receive_message q).1 = q.tail ∧
      receive_message ([] : List Body) = ([], ReceiveResult.empty) ∧
      (loop_iter Row DF env q).1 = q.tail := by
  refine ⟨?_, rfl, ?_⟩
  · cases q with
    | nil => rfl
    | cons b rest => cases hb : parse_body b <;> simp [receive_message, hb]
  · cases q with
    | nil => rfl
    | cons b rest => cases hb : parse_body b <;> simp [loop_iter, hb]

/-- Claim C4: a job message whose table_name key is absent is dropped by
process_message with no call to the fetcher, the mapper or the exporter,
and without raising. -/
theorem c4_missing_table_name (Row DF : Type) (createDF : List Row → DF)
    (applyM : DF → Mapping → DF)
    (fetch : Query → String → Except Unit (List Row))
    (uploadOk : Bool) (q : Option Query) (cm : Option Mapping) :
    process_message Row DF createDF applyM fetch uploadOk
      ⟨FieldVal.absent, q, cm⟩ = ([], false) := rfl

/-- Claim C5: whenever the body of one loop iteration raises, from
json.loads or anywhere in process_message, the exception is caught by the
except clause of main, the loop sleeps the configured poll interval and
the next iteration receives from the remaining queue; the loop never
terminates because of such a failure. -/
theorem c5_loop_resilience (Row DF : Type) (env : LoopEnv Row DF) (b : Body)
    (rest : List Body)
    (hraise : parse_body b = none ∨
      ∃ m, parse_body b = some m ∧
        (process_message Row DF env.createDF env.applyM env.fetch
          env.uploadOk m).2 = true) :
    (loop_iter Row DF env (b :: rest)).1 = rest ∧
      isErrorCaught (loop_iter Row DF env (b :: rest)).2 = true ∧
      sleep_of env.pollInterval (loop_iter Row DF env (b :: rest)).2 =
        env.pollInterval ∧
      ∀ n, run Row DF env (n + 1) (b :: rest) = run Row DF env n rest := by
  have h1 : (loop_iter Row DF env (b :: rest)).1 = rest := by
    rcases hraise with hb | ⟨m, hb, hr⟩ <;> simp [loop_iter, *]
  have h2 : isErrorCaught (loop_iter Row DF env (b :: rest)).2 = true := by
    rcases hraise with hb | ⟨m, hb, hr⟩
    · simp [loop_iter, hb, isErrorCaught]
    · simp [loop_iter, hb, hr, isErrorCaught]
  have h3 : sleep_of env.pollInterval (loop_iter Row DF env (b :: rest)).2 =
      env.pollInterval := by
    rcases hraise with hb | ⟨m, hb, hr⟩
    · simp [loop_iter, hb, sleep_of]
    · simp [loop_iter, hb, hr, sleep_of]
  refine ⟨h1, h2, h3, fun n => ?_⟩
  show run Row DF env n (loop_iter Row DF env (b :: rest)).1 =
    run Row DF env n rest
  rw [h1]

/-- Claim C5 witness: a queue holding one unparseable body, with trivial
collaborators; the iteration is caught, sleeps 5 seconds and the next
iteration runs on the emptied queue. -/
theorem c5_loop_resilience_witness :
    (loop_iter Unit Unit
          ⟨fun _ => (), fun d _ => d, fun _ _ => Except.ok [], true, 5⟩
          (Body.malformed "not json" :: [])).1 = [] ∧
      isErrorCaught (loop_iter Unit Unit
          ⟨fun _ => (), fun d _ => d, fun _ _ => Except.ok [], true, 5⟩
          (Body.malformed "not json" :: [])).2 = true ∧
      sleep_of 5 (loop_iter Unit Unit
          ⟨fun _ => (), fun d _ => d, fun _ _ => Except.ok [], true, 5⟩
          (Body.malformed "not json" :: [])).2 = 5 ∧
      run Unit Unit ⟨fun _ => (), fun d _ => d, fun _ _ => Except.ok [], true, 5⟩
          (0 + 1) (Body.malformed "not json" :: []) =
        run Unit Unit ⟨fun _ => (), fun d _ => d, fun _ _ => Except.ok [], true, 5⟩
          0 [] :=
  have h := c5_loop_resilience Unit Unit
    ⟨fun _ => (), fun d _ => d, fun _ _ => Except.ok [], true, 5⟩
    (Body.malformed "not json") [] (Or.inl rfl)
  ⟨h.1, h.2.1, h.2.2.1, h.2.2.2 0⟩

/-- Claim C6: a job whose fetch succeeds with an empty result set is
dropped: the fetch call is the only collaborator call, no mapping and no
export happen, and process_message does not raise. -/
theorem c6_empty_fetch_no_export (Row DF : Type) (createDF : List Row → DF)
    (applyM : DF → Mapping → DF)
    (fetch : Query → String → Except Unit (List Row))
    (uploadOk : Bool) (t : String) (q : Option Query) (cm : Option Mapping)
    (hne : t.isEmpty = false)
    (hf : fetch (q.getD []) t = Except.ok []) :
    process_message Row DF createDF applyM fetch uploadOk
      ⟨FieldVal.str t, q, cm⟩ = ([Event.fetchCall (q.getD []) t], false) := by
  simp [process_message, FieldVal.get, hne, hf]

/-- Claim C6 witness: a concrete job whose fetch returns no documents. -/
theorem c6_empty_fetch_no_export_witness :
    process_message Unit Unit (fun _ => ()) (fun d _ => d)
        (fun _ _ => Except.ok []) true ⟨FieldVal.str "orders", none, none⟩ =
      ([Event.fetchCall [] "orders"], false) :=
  c6_empty_fetch_no_export Unit Unit (fun _ => ()) (fun d _ => d)
    (fun _ _ => Except.ok []) true "orders" none none (by decide) rfl

/-- Claim C7: the exporter's file name is the table name, an underscore,
the fresh uuid hex token and a .csv suffix, hence matches the 32-hex-char
pattern, and two export calls whose uuid tokens differ produce two
distinct file names for the same table. -/
theorem c7_export_name (t tok1 tok2 : String)
    (h1 : is_hex_token tok1 = true) (h2 : is_hex_token tok2 = true)
    (hne : tok1 ≠ tok2) :
    matches_export_pattern t (export_file_name t tok1) ∧
      export_file_name t tok1 ≠ export_file_name t tok2 := by
  refine ⟨⟨tok1, h1, rfl⟩, fun he => hne ?_⟩
  have hd := congrArg String.data he
  simp only [export_file_name, String.data_append, List.append_assoc] at hd
  have h3 := List.append_cancel_left hd
  have h4 := List.append_cancel_left h3
  have h5 := List.append_cancel_right h4
  exact String.ext h5

/-- Claim C7 witness: table orders with two concrete distinct 32-hex
tokens: the first name matches the pattern and the two names differ. -/
theorem c7_export_name_witness :
    matches_export_pattern "orders"
        (export_file_name "orders" "00000000000000000000000000000000") ∧
      export_file_name "orders" "00000000000000000000000000000000" ≠
        export_file_name "orders" "ffffffffffffffffffffffffffffffff" :=
  c7_export_name "orders" "00000000000000000000000000000000"
    "ffffffffffffffffffffffffffffffff" (by decide) (by decide) (by decide)

/-- Claim C8: a job whose column mapping is empty, whether the key is
absent or holds an empty dict, skips the mapping step entirely: the
exporter receives exactly the DataFrame created from the fetched data,
untouched, and the only calls are the fetch and the export. -/
theorem c8_empty_mapping_passthrough (Row DF : Type) (createDF : List Row → DF)
    (applyM : DF → Mapping → DF)
    (fetch : Query → String → Except Unit (List Row))
    (uploadOk : Bool) (t : String) (q : Option Query) (cm : Option Mapping)
    (data : List Row)
    (hne : t.isEmpty = false)
    (hcm : cm.getD [] = [])
    (hf : fetch (q.getD []) t = Except.ok data)
    (hd : data.isEmpty = false) :
    process_message Row DF createDF applyM fetch uploadOk
      ⟨FieldVal.str t, q, cm⟩ =
      ([Event.fetchCall (q.getD []) t, Event.exportCall (createDF data) t],
        !uploadOk) := by
  simp [process_message, FieldVal.get, hne, hcm, hf, hd]

/-- Claim C8 witness: a one-row fetch result with no column_mapping key:
the export receives the unmapped DataFrame and no map call occurs. -/
theorem c8_empty_mapping_passthrough_witness :
    process_message Unit Unit (fun _ => ()) (fun d _ => d)
        (fun _ _ => Except.ok [()]) true ⟨FieldVal.str "orders", none, none⟩ =
      ([Event.fetchCall [] "orders", Event.exportCall () "orders"], false) :=
  c8_empty_mapping_passthrough Unit Unit (fun _ => ()) (fun d _ => d)
    (fun _ _ => Except.ok [()]) true "orders" none none [()]
    (by decide) rfl rfl rfl

/-- Claim C9: a queue head whose body json.loads rejects is still deleted,
since delete_message runs before json.loads; receive_message then raises,
the loop's except clause catches it, and the iteration ends with the
message gone from the queue and no collaborator call made. -/
theorem c9_malformed_body (Row DF : Type) (env : LoopEnv Row DF) (b : Body)
    (rest : List Body) (hb : parse_body b = none) :
    receive_message (b :: rest) = (rest, ReceiveResult.exn) ∧
      loop_iter Row DF env (b :: rest) = (rest, IterOutcome.errorCaught []) := by
  refine ⟨?_, ?_⟩ <;> simp [receive_message, loop_iter, hb]

/-- Claim C9 witness: a concrete malformed body at the head of a queue. -/
theorem c9_malformed_body_witness :
    receive_message (Body.malformed "oops" :: []) = ([], ReceiveResult.exn) ∧
      loop_iter Unit Unit
          ⟨fun _ => (), fun d _ => d, fun _ _ => Except.ok [], true, 5⟩
          (Body.malformed "oops" :: []) = ([], IterOutcome.errorCaught []) :=
  c9_malformed_body Unit Unit
    ⟨fun _ => (), fun d _ => d, fun _ _ => Except.ok [], true, 5⟩
    (Body.malformed "oops") [] rfl

/-- Claim C10: a table_name key holding JSON null or the empty string is
treated exactly like an absent key, by Python truthiness of
message.get: the job is dropped with no collaborator call and no raise,
just as in the absent case. -/
theorem c10_falsy_table_name (Row DF : Type) (createDF : List Row → DF)
    (applyM : DF → Mapping → DF)
    (fetch : Query → String → Except Unit (List Row))
    (uploadOk : Bool) (q : Option Query) (cm : Option Mapping) :
    process_message Row DF createDF applyM fetch uploadOk
        ⟨FieldVal.null, q, cm⟩ = ([], false) ∧
      process_message Row DF createDF applyM fetch uploadOk
        ⟨FieldVal.str "", q, cm⟩ = ([], false) ∧
      process_message Row DF createDF applyM fetch uploadOk
        ⟨FieldVal.absent, q, cm⟩ = ([], false) := by
  refine ⟨rfl, ?_, rfl⟩
  have h : "".isEmpty = true := rfl
  simp [process_message, FieldVal.get, h]
